import Mathlib

/-!
Verification development for the questionnaire extraction and reconciliation
subsystem of the recruitment_ops repository.

The Python modules under catsone/processors are shallowly embedded as pure
Lean functions:
- comprehensive_attachment_processor.py: confidence scoring, cross
  validation of PDF versus vision data, and best-vision-variant selection;
- vision_questionnaire_analyzer.py: combination of per-page vision analyses
  into one candidate profile;
- dayforce_questionnaire_handler.py: red-seal extraction and flagging of
  undetected radio selections;
- pdf_form_extractor.py: direct form-field extraction with checkbox and
  radio decoding;
- pillow_form_enhancer.py: the image enhancement pipeline.

Python dicts are modelled as insertion-ordered association lists with
first-key lookup and replace-or-append update, matching dict semantics for
the unique-key dictionaries the code builds.  Python floats are modelled as
exact rationals.
-/

namespace RecOps

/-! ## String helpers (Python lower/strip/in/endswith, modelled on char lists) -/

/-- Python str.lower, restricted to the character-wise mapping. -/
def strLower (s : String) : String := ⟨s.data.map Char.toLower⟩

/-- Whitespace recognised by Python str.strip for the inputs in this code. -/
def isSpaceChar (c : Char) : Bool := c = ' ' || c = '\t' || c = '\n' || c = '\r'

/-- Python str.strip. -/
def strTrim (s : String) : String :=
  ⟨((s.data.dropWhile isSpaceChar).reverse.dropWhile isSpaceChar).reverse⟩

/-- Python str.replace applied to one character, as used for replace of underscore by space. -/
def underscoresToSpaces (s : String) : String :=
  ⟨s.data.map (fun c => if c = '_' then ' ' else c)⟩

/-- Check that the second list occurs at the head of the first. -/
def charsLeadWith : List Char → List Char → Bool
  | _, [] => true
  | [], _ :: _ => false
  | a :: as, p :: ps => p = a && charsLeadWith as ps

/-- Check that the second list occurs somewhere inside the first. -/
def charsContain (s pat : List Char) : Bool :=
  match s with
  | [] => charsLeadWith [] pat
  | _ :: rest => charsLeadWith s pat || charsContain rest pat

/-- Python substring membership, pat in s. -/
def containsSubstr (s pat : String) : Bool := charsContain s.data pat.data

/-- Python str.endswith. -/
def strEndsWith (s suffix : String) : Bool :=
  charsLeadWith s.data.reverse suffix.data.reverse

/-- Strip every leading slash, Python lstrip with a slash argument. -/
def dropSlashes (s : String) : String := ⟨s.data.dropWhile (fun c => c = '/')⟩

/-! ## Python dict model: insertion-ordered association lists -/

/-- A Python dict with string keys. -/
abbrev Dict (α : Type) := List (String × α)

/-- Python dict lookup (d.get(k)): the value at the first matching key. -/
def dlookup {α : Type} (d : Dict α) (k : String) : Option α :=
  match d with
  | [] => none
  | (k0, v) :: rest => if k0 = k then some v else dlookup rest k

/-- Python dict assignment d[k] = v: replace in place, or append a new key. -/
def dset {α : Type} (d : Dict α) (k : String) (v : α) : Dict α :=
  match d with
  | [] => [(k, v)]
  | (k0, v0) :: rest => if k0 = k then (k, v) :: rest else (k0, v0) :: dset rest k v

/-! ## Python values stored in questionnaire-data dicts -/

/-- The value universe appearing in the questionnaire data dicts that the
comprehensive attachment processor exchanges: strings, booleans, integers,
string lists, None, and the two-entry conflict dict recorded by
cross-validation. -/
inductive Value where
  | vnone
  | vbool (b : Bool)
  | vint (n : Int)
  | vstr (s : String)
  | vlist (xs : List String)
  | vconflict (pdfValue visionValue : Value)
deriving DecidableEq

/-- Python truthiness of a stored value. -/
def truthy : Value → Bool
  | .vnone => false
  | .vbool b => b
  | .vint n => n != 0
  | .vstr s => s != ""
  | .vlist xs => !xs.isEmpty
  | .vconflict _ _ => true

/-- Truthiness of an optional dict entry; a missing key reads as None. -/
def truthyO : Option Value → Bool
  | none => false
  | some v => truthy v

/-! ## ComprehensiveAttachmentProcessor._calculate_confidence (lines 411-432) -/

/-- Count the keys of final_data that end in the conflict suffix, as the
list comprehension in _calculate_confidence does. -/
def countConflicts (final_data : Dict Value) : Nat :=
  (final_data.filter (fun p => strEndsWith p.1 "_conflict")).length

/-- Model of _calculate_confidence: 0.6 when PDF form fields were found,
0.4 when a vision analysis result is present, 0.2 when the hybrid primary
source is the PDF, minus 0.1 per conflict key of final_data, clamped to
the interval from 0 to 1. -/
def calculate_confidence (pdfHasFormFields visionPresent primarySourceIsPdf : Bool)
    (final_data : Dict Value) : ℚ :=
  let c1 : ℚ := if pdfHasFormFields then 6/10 else 0
  let c2 : ℚ := c1 + (if visionPresent then 4/10 else 0)
  let c3 : ℚ := c2 + (if primarySourceIsPdf then 2/10 else 0)
  let c4 : ℚ := c3 - (countConflicts final_data : ℚ) * (1/10)
  min 1 (max 0 c4)

/-! ## ComprehensiveAttachmentProcessor._cross_validate_results (lines 387-409) -/

/-- The three fields compared by _cross_validate_results. -/
def criticalFields : List String := ["red_seal_status", "trade_licenses", "years_experience"]

/-- One iteration of the _cross_validate_results loop for one field: fill a
missing PDF value from vision, or record a conflict dict under the field
name with the conflict suffix while keeping the PDF value. -/
def cvStep (pdf_data vision_data : Dict Value) (field : String) : Dict Value :=
  let pdf_value := dlookup pdf_data field
  let vision_value := dlookup vision_data field
  if truthyO pdf_value = false ∧ truthyO vision_value = true then
    dset pdf_data field (vision_value.getD .vnone)
  else if truthyO pdf_value = true ∧ truthyO vision_value = true ∧ pdf_value ≠ vision_value then
    dset pdf_data (field ++ "_conflict")
      (.vconflict (pdf_value.getD .vnone) (vision_value.getD .vnone))
  else
    pdf_data

/-- Model of _cross_validate_results: iterate cvStep over the critical
fields, mutating the PDF data dict. -/
def cross_validate_results (pdf_data vision_data : Dict Value) : Dict Value :=
  criticalFields.foldl (fun acc field => cvStep acc vision_data field) pdf_data

/-! ## ComprehensiveAttachmentProcessor._select_best_vision_result (lines 350-385) -/

/-- The key fields counted by the completeness score. -/
def keyFields : List String :=
  ["red_seal_status", "trade_licenses", "years_experience", "willing_to_travel", "available_start"]

/-- The version names granted the specialisation bonus. -/
def specializedVersions : List String := ["checkbox_binary", "radio_enhanced"]

/-- Whether one key field counts toward the completeness score: present and
not None, empty, or the Not specified placeholder. -/
def fieldScored (data : Dict Value) (field : String) : Bool :=
  match dlookup data field with
  | some v => decide (v ≠ .vnone ∧ v ≠ .vstr "" ∧ v ≠ .vstr "Not specified")
  | none => false

/-- Completeness score of one vision version: one point per scored key
field plus one half for a specialised version. -/
def scoreOf (version : String) (data : Dict Value) : ℚ :=
  ((keyFields.filter (fun f => fieldScored data f)).length : ℚ) +
    (if version ∈ specializedVersions then 1/2 else 0)

/-- The record _select_best_vision_result returns for the winning version. -/
structure BestResult where
  version : String
  data : Dict Value
  score : ℚ
deriving DecidableEq

/-- One iteration of the _select_best_vision_result loop: skip entries with
no extracted_data, otherwise update the best result when the score strictly
improves. -/
def selectStep (acc : Option BestResult × ℚ) (p : String × Option (Dict Value)) :
    Option BestResult × ℚ :=
  match p.2 with
  | none => acc
  | some data =>
    let score := scoreOf p.1 data
    if acc.2 < score then (some ⟨p.1, data, score⟩, score) else acc

/-- Model of _select_best_vision_result: fold the versions in dict order
starting from best_result None and best_score 0. -/
def select_best_vision_result (vision_data : List (String × Option (Dict Value))) :
    Option BestResult :=
  (vision_data.foldl selectStep (none, (0 : ℚ))).1

/-! ## VisionQuestionnaireAnalyzer._combine_page_analyses (lines 168-240) -/

/-- The equipment_specific sub-dict of one parsed vision question. -/
structure EquipmentSpec where
  is_equipment_question : Bool
  equipment_brands_shown : List String
  equipment_brands_selected : List String
  equipment_types_shown : List String
  equipment_types_selected : List String
deriving DecidableEq

/-- One parsed question record of a page analysis, with the keys read by
the combining code and the Dayforce handler; a missing key is None and a
missing list key defaults to the empty list. -/
structure QuestionResp where
  question_number : Option String
  question_text : Option String
  question_type : Option String
  response_type : Option String
  all_available_options : List String
  actual_selections : List String
  text_responses : List String
  equipment_specific : Option EquipmentSpec
deriving DecidableEq

/-- One entry of page_analyses: the page file name and the parsed analysis
fields that the combining code reads. -/
structure PageAnalysis where
  page : String
  candidate_name : Option String
  questions_and_responses : List QuestionResp
deriving DecidableEq

/-- Model of _categorize_question: the ordered substring dispatch onto a
short category slug. -/
def categorize_question (question_text : Option String) : String :=
  match question_text with
  | none => "unknown"
  | some t =>
    if t = "" then "unknown"
    else
      let tl := strLower t
      if containsSubstr tl "industries" then "industries_worked"
      else if containsSubstr tl "fast-paced" then "fast_paced_comfort"
      else if containsSubstr tl "physical" && containsSubstr tl "limitations" then "physical_limitations"
      else if containsSubstr tl "mining experience" then "mining_experience"
      else if containsSubstr tl "position" && containsSubstr tl "interested" then "positions_interested"
      else if containsSubstr tl "winter" && containsSubstr tl "gear" then "weather_gear"
      else if containsSubstr tl "rotational shifts" then "rotational_shifts"
      else if containsSubstr tl "service truck" then "service_truck_sharing"
      else if containsSubstr tl "background check" then "background_check"
      else if containsSubstr tl "drug" && containsSubstr tl "test" then "drug_test"
      else if containsSubstr tl "komatsu" then "komatsu_experience"
      else if containsSubstr tl "red seal" then "red_seal"
      else if containsSubstr tl "journeyman" then "journeyman_license"
      else if containsSubstr tl "underground" && containsSubstr tl "brands" then "underground_brands"
      else if containsSubstr tl "employment status" then "employment_status"
      else if containsSubstr tl "available to start" then "start_availability"
      else if containsSubstr tl "new opportunity" then "reason_for_looking"
      else "other"

/-- The response record stored in actual_responses per question; rtype
holds the type entry, read from the response_type key. -/
structure ResponseRecord where
  question : Option String
  selections : List String
  text : List String
  rtype : Option String
  all_options : List String
deriving DecidableEq

/-- The actual_responses key built for one question. -/
def responseKey (q : QuestionResp) : String :=
  "q" ++ (match q.question_number with | some s => s | none => "None") ++ "_" ++
    categorize_question q.question_text

/-- The actual_responses entry built for one question: selections and
options are stored verbatim. -/
def responseOf (q : QuestionResp) : ResponseRecord :=
  ⟨q.question_text, q.actual_selections, q.text_responses, q.response_type,
    q.all_available_options⟩

/-- The summary lists assembled by _create_response_summary. -/
structure ResponseSummary where
  key_qualifications : List String
  experience_highlights : List String
  work_preferences : List String
  potential_concerns : List String
deriving DecidableEq

/-- Python repr of a list of strings, used for the None membership test on
str(selections). -/
def strRepr (xs : List String) : String :=
  "[" ++ String.intercalate ", " (xs.map (fun s => "\x27" ++ s ++ "\x27")) ++ "]"

/-- One iteration of the _create_response_summary loop over the stored
responses. -/
def summaryStep (s : ResponseSummary) (p : String × ResponseRecord) : ResponseSummary :=
  let key := p.1
  let selections := p.2.selections
  let text := p.2.text
  if containsSubstr key "industries_worked" && !selections.isEmpty then
    { s with experience_highlights :=
        s.experience_highlights ++ ["Industries: " ++ String.intercalate ", " selections] }
  else if containsSubstr key "red_seal" && decide ("Yes" ∈ selections) then
    { s with key_qualifications := s.key_qualifications ++ ["Red Seal Certified"] }
  else if containsSubstr key "journeyman" && decide ("Yes" ∈ selections) then
    { s with key_qualifications := s.key_qualifications ++ ["Journeyman Licensed"] }
  else if containsSubstr key "mining_experience" && decide ("Yes" ∈ selections) then
    let s := { s with experience_highlights := s.experience_highlights ++ ["Has mining experience"] }
    if !text.isEmpty then
      { s with experience_highlights :=
          s.experience_highlights ++ ["Mining comment: " ++ String.intercalate ", " text] }
    else s
  else if containsSubstr key "positions_interested" && !selections.isEmpty then
    { s with work_preferences :=
        s.work_preferences ++
          ["Interested positions: " ++ String.intercalate ", " (selections.take 3) ++ "..."] }
  else if containsSubstr key "underground_brands" then
    if containsSubstr (strRepr selections) "None" then
      { s with potential_concerns :=
          s.potential_concerns ++ ["No underground machinery brand experience"] }
    else if !selections.isEmpty then
      { s with experience_highlights :=
          s.experience_highlights ++ ["Underground brands: " ++ String.intercalate ", " selections] }
    else s
  else if containsSubstr key "reason_for_looking" && !selections.isEmpty then
    { s with work_preferences :=
        s.work_preferences ++ ["Reason for change: " ++ String.intercalate ", " selections] }
  else s

/-- Model of _create_response_summary. -/
def create_response_summary (responses : Dict ResponseRecord) : ResponseSummary :=
  responses.foldl summaryStep ⟨[], [], [], []⟩

/-- The combined candidate profile assembled by _combine_page_analyses,
with the equipment_analysis lists inlined as fields. -/
structure CombinedProfile where
  candidate_name : Option String
  actual_responses : Dict ResponseRecord
  brands_available : List String
  brands_selected : List String
  equipment_types_available : List String
  equipment_types_selected : List String
  equipment_gaps : List String
  response_summary : ResponseSummary
deriving DecidableEq

/-- The empty profile the combining loop starts from. -/
def initProfile : CombinedProfile := ⟨none, [], [], [], [], [], [], ⟨[], [], [], []⟩⟩

/-- Per-question body of the _combine_page_analyses loop: store the
response record under its key, then extend the equipment lists when the
question is an equipment question. -/
def combineQuestionStep (acc : CombinedProfile) (q : QuestionResp) : CombinedProfile :=
  let acc := { acc with actual_responses := dset acc.actual_responses (responseKey q) (responseOf q) }
  match q.equipment_specific with
  | some eq =>
    if eq.is_equipment_question then
      { acc with
          brands_available := acc.brands_available ++ eq.equipment_brands_shown,
          equipment_types_available :=
            acc.equipment_types_available ++ eq.equipment_types_shown,
          brands_selected := acc.brands_selected ++ eq.equipment_brands_selected,
          equipment_types_selected :=
            acc.equipment_types_selected ++ eq.equipment_types_selected }
    else acc
  | none => acc

/-- Per-page body of the _combine_page_analyses loop: record a truthy
candidate name, then process every question of the page. -/
def combinePageStep (acc : CombinedProfile) (page : PageAnalysis) : CombinedProfile :=
  let acc :=
    match page.candidate_name with
    | some n => if n ≠ "" then { acc with candidate_name := some n } else acc
    | none => acc
  page.questions_and_responses.foldl combineQuestionStep acc

/-- Deduplication of the equipment lists; Python list(set(x)) with the
order normalised to first occurrences. -/
def dedup (xs : List String) : List String := xs.eraseDups

/-- Model of _combine_page_analyses: fold all pages, deduplicate the
equipment lists, compute the brand gaps, and build the response summary. -/
def combine_page_analyses (page_analyses : List PageAnalysis) : CombinedProfile :=
  let c := page_analyses.foldl combinePageStep initProfile
  let c := { c with
      brands_available := dedup c.brands_available,
      brands_selected := dedup c.brands_selected,
      equipment_types_available := dedup c.equipment_types_available,
      equipment_types_selected := dedup c.equipment_types_selected,
      equipment_gaps := dedup c.equipment_gaps }
  let c := { c with
      equipment_gaps :=
        c.brands_available.filter (fun brand => decide (brand ∉ c.brands_selected)) }
  { c with response_summary := create_response_summary c.actual_responses }

/-- All questions of all pages in page order, as the nested loops visit
them. -/
def allQuestionsOf (page_analyses : List PageAnalysis) : List QuestionResp :=
  page_analyses.flatMap (·.questions_and_responses)

/-! ## DayforceQuestionnaireHandler (lines 27-133) -/

/-- One entry of the affected_questions list recorded in the Dayforce
warning. -/
structure AffectedQuestion where
  question_number : Option String
  question_text : Option String
  options : List String
deriving DecidableEq

/-- Model of the radio-question scan of process_dayforce_questionnaire:
every radio_button question with no detected selection is flagged. -/
def collect_unselected_radio (page_analyses : List PageAnalysis) : List AffectedQuestion :=
  (allQuestionsOf page_analyses).filterMap (fun q =>
    if q.question_type = some "radio_button" ∧ q.actual_selections = [] then
      some ⟨q.question_number, q.question_text, q.all_available_options⟩
    else none)

/-- Model of _extract_red_seal: a manual override wins, then the first
question whose text contains red seal and has a selection contributes its
first selection, otherwise the manual-verification sentinel. -/
def extract_red_seal (page_analyses : List PageAnalysis) (overrides : Dict String) : String :=
  match dlookup overrides "red_seal" with
  | some v => v
  | none =>
    match (allQuestionsOf page_analyses).find? (fun q =>
        containsSubstr (strLower (q.question_text.getD "")) "red seal" &&
          !q.actual_selections.isEmpty) with
    | some q => q.actual_selections.headD ""
    | none => "REQUIRES MANUAL VERIFICATION"

/-- Model of _extract_journeyman, identical in shape to the red-seal
extraction. -/
def extract_journeyman (page_analyses : List PageAnalysis) (overrides : Dict String) : String :=
  match dlookup overrides "journeyman_license" with
  | some v => v
  | none =>
    match (allQuestionsOf page_analyses).find? (fun q =>
        containsSubstr (strLower (q.question_text.getD "")) "journeyman" &&
          !q.actual_selections.isEmpty) with
    | some q => q.actual_selections.headD ""
    | none => "REQUIRES MANUAL VERIFICATION"

/-- The outcome fields of process_dayforce_questionnaire that concern the
critical questions: the warning flag, the affected-question list, and the
red-seal and journeyman values written into the candidate profile. -/
structure DayforceOutcome where
  manual_verification_required : Bool
  affected_questions : List AffectedQuestion
  red_seal : String
  journeyman_license : String
deriving DecidableEq

/-- Model of process_dayforce_questionnaire on those fields: the warning is
always raised with manual_verification_required True. -/
def process_dayforce_questionnaire (page_analyses : List PageAnalysis)
    (overrides : Dict String) : DayforceOutcome :=
  ⟨true, collect_unselected_radio page_analyses,
    extract_red_seal page_analyses overrides,
    extract_journeyman page_analyses overrides⟩

/-! ## PDFFormExtractor (pdf_form_extractor.py) -/

/-- PDF object values stored under the field keys: name objects, text
strings, and numbers. -/
inductive PdfVal where
  | name (s : String)
  | str (s : String)
  | int (n : Int)
deriving DecidableEq

/-- Python truthiness of a PDF value. -/
def pdfTruthy : PdfVal → Bool
  | .name s => s != ""
  | .str s => s != ""
  | .int n => n != 0

/-- Python str applied to a PDF value; a name object converts to its text
including the leading slash. -/
def pdfValToStr : PdfVal → String
  | .name s => s
  | .str s => s
  | .int n => toString n

/-- An entry of an Opt array: either a scalar export value or an
export-value and label pair. -/
inductive OptEntry where
  | single (s : String)
  | pair (exportValue label : String)
deriving DecidableEq

/-- The entries of one form-field dictionary read by extract_all_fields:
field type, value, appearance state, flags, options and kids (each kid
modelled by its optional appearance-state entry). -/
structure FieldDict where
  FT : Option String
  V : Option PdfVal
  AS : Option PdfVal
  Ff : Nat
  Opt : List OptEntry
  Kids : List (Option PdfVal)
deriving DecidableEq

/-- Model of _is_checkbox_checked, appearance-state part: the AS entry must
be a truthy name object equal to a recognised on marker. -/
def checkAS : Option PdfVal → Bool
  | some (.name s) => if s != "" then decide (s ∈ (["/Yes", "/On", "/1"] : List String)) else false
  | _ => false

/-- Model of _is_checkbox_checked over the V and AS entries of a checkbox
field: a truthy name value is compared to the name on markers, a truthy
string value is lowercased and compared to the textual on markers, and any
other case falls back to the appearance state. -/
def is_checkbox_checked (V AS : Option PdfVal) : Bool :=
  match V with
  | some v =>
    if pdfTruthy v then
      match v with
      | .name s => decide (s ∈ (["/Yes", "/On", "/1"] : List String))
      | .str s => decide (strLower s ∈ (["yes", "on", "1", "true", "x"] : List String))
      | .int _ => checkAS AS
    else checkAS AS
  | none => checkAS AS

/-- Model of _get_field_value: the stored text of a truthy value, else
None. -/
def get_field_value (V : Option PdfVal) : Option String :=
  match V with
  | some v => if pdfTruthy v then some (pdfValToStr v) else none
  | none => none

/-- Model of _get_radio_value: the selected export name with leading
slashes stripped for a name object, else the text of the value. -/
def get_radio_value (V : Option PdfVal) : Option String :=
  match V with
  | some v =>
    if pdfTruthy v then
      some (match v with
        | .name s => dropSlashes s
        | .str s => s
        | .int n => toString n)
    else none
  | none => none

/-- Model of _get_radio_options: the Opt labels followed by the truthy kid
appearance states with leading slashes stripped. -/
def get_radio_options (Opt : List OptEntry) (Kids : List (Option PdfVal)) : List String :=
  (Opt.map (fun o => match o with | .single s => s | .pair _ label => label)) ++
    Kids.filterMap (fun kid =>
      match kid with
      | some v => if pdfTruthy v then some (dropSlashes (pdfValToStr v)) else none
      | none => none)

/-- The per-group radio record built by extract_all_fields. -/
structure RadioInfo where
  selected : Option String
  options : List String
deriving DecidableEq

/-- The record built for fields of other types. -/
structure OtherInfo where
  ftype : String
  value : Option String
deriving DecidableEq

/-- The result dict of extract_all_fields; the except branches return only
has_form_fields and error, modelled with the remaining fields empty. -/
structure ExtractAllResult where
  has_form_fields : Bool
  text_fields : Dict (Option String)
  checkboxes : Dict Bool
  radio_buttons : Dict RadioInfo
  other_fields : Dict OtherInfo
  questionnaire_data : Dict Value
  error : Option String
deriving DecidableEq

/-- A PDF read attempt: an exception anywhere while opening or reading, or
a document with an AcroForm flag and its fields. -/
inductive PdfRead where
  | failure (message : String)
  | document (hasAcroForm : Bool) (fields : List (String × FieldDict))

/-- The field-name to standard-key variations table of PDFFormExtractor. -/
def field_mappings : List (String × List String) :=
  [("red_seal", ["red seal", "redseal", "red_seal_status", "has_red_seal"]),
   ("trade_licenses", ["trade_license", "licenses", "trade licenses", "certifications"]),
   ("years_experience", ["years", "experience", "years_of_experience", "exp_years"]),
   ("willing_to_travel", ["travel", "willing_travel", "can_travel", "travel_willing"]),
   ("available_start", ["start_date", "available_date", "availability", "can_start"]),
   ("preferred_location", ["location", "preferred_loc", "work_location", "city"]),
   ("hourly_rate", ["rate", "hourly", "wage", "salary", "pay_rate"]),
   ("overtime_willing", ["overtime", "ot", "overtime_willing", "work_overtime"]),
   ("safety_tickets", ["safety", "tickets", "safety_tickets", "certifications"]),
   ("union_member", ["union", "union_member", "union_status", "is_union"])]

/-- Model of _normalize_fields on the text-field dict: clean each name and
map it onto the first matching standard key, else keep the cleaned name. -/
def normalize_fields (fields : Dict (Option String)) : Dict (Option String) :=
  fields.foldl (fun acc p =>
    let clean_name := underscoresToSpaces (strTrim (strLower p.1))
    match field_mappings.find? (fun m =>
        m.2.any (fun variation => containsSubstr clean_name variation)) with
    | some m => dset acc m.1 p.2
    | none => dset acc clean_name p.2) []

/-- The separators tried by _parse_licenses, in order. -/
def licenseSeparators : List String := [",", ";", "\n", "•", "-"]

/-- Model of _parse_licenses: split on the first separator present and keep
the trimmed parts longer than two characters, else the trimmed whole text
when nonempty. -/
def parse_licenses (licenses_text : String) : List String :=
  match licenseSeparators.find? (fun sep => containsSubstr licenses_text sep) with
  | some sep =>
    ((licenses_text.splitOn sep).map strTrim).filter
      (fun part => part ≠ "" && part.length > 2)
  | none =>
    if strTrim licenses_text ≠ "" then [strTrim licenses_text] else []

/-- Value of a maximal digit run, accumulating left to right. -/
def digitsVal (cs : List Char) (acc : Nat) : Nat :=
  match cs with
  | [] => acc
  | c :: rest => if c.isDigit then digitsVal rest (acc * 10 + (c.toNat - 48)) else acc

/-- The first run of digits in a character list, as a number. -/
def firstDigitRun : List Char → Option Nat
  | [] => none
  | c :: rest => if c.isDigit then some (digitsVal rest (c.toNat - 48)) else firstDigitRun rest

/-- The written-number table of _parse_years, in dict order. -/
def word_to_num : List (String × Nat) :=
  [("one", 1), ("two", 2), ("three", 3), ("four", 4), ("five", 5),
   ("six", 6), ("seven", 7), ("eight", 8), ("nine", 9), ("ten", 10),
   ("eleven", 11), ("twelve", 12), ("fifteen", 15), ("twenty", 20)]

/-- Model of _parse_years: the first digit run, else the first written
number contained in the lowercased text. -/
def parse_years (years_text : String) : Option Nat :=
  match firstDigitRun years_text.data with
  | some n => some n
  | none =>
    (word_to_num.find? (fun p => containsSubstr (strLower years_text) p.1)).map (·.2)

/-- The affirmative strings recognised for red seal and travel fields. -/
def yesValues : List String := ["yes", "y", "true", "1", "x"]

/-- The remaining keys copied verbatim by _extract_questionnaire_data. -/
def otherQuestionnaireKeys : List String :=
  ["available_start", "preferred_location", "hourly_rate",
   "overtime_willing", "safety_tickets", "union_member"]

/-- Model of _extract_questionnaire_data on the normalized text fields.  A
stored None value reaching a string method raises in Python; that raise is
modelled as an error result, which the caller of extract_all_fields turns
into a has_form_fields False dict. -/
def extract_questionnaire_data (fields : Dict (Option String)) : Except String (Dict Value) := do
  let normalized := normalize_fields fields
  let d : Dict Value := []
  let d ←
    match dlookup normalized "red_seal" with
    | some (some s) =>
      pure (dset d "red_seal_status"
        (.vstr (if strTrim (strLower s) ∈ yesValues then "Yes" else "No")))
    | some none => throw "NoneType has no attribute lower"
    | none => pure d
  let d ←
    match dlookup normalized "trade_licenses" with
    | some (some s) => pure (dset d "trade_licenses" (.vlist (parse_licenses s)))
    | some none => throw "argument of type NoneType is not a string"
    | none => pure d
  let d ←
    match dlookup normalized "years_experience" with
    | some (some s) =>
      pure (dset d "years_experience"
        (match parse_years s with | some n => .vint n | none => .vnone))
    | some none => throw "expected string or bytes-like object"
    | none => pure d
  let d ←
    match dlookup normalized "willing_to_travel" with
    | some (some s) =>
      pure (dset d "willing_to_travel" (.vbool (strTrim (strLower s) ∈ yesValues)))
    | some none => throw "NoneType has no attribute lower"
    | none => pure d
  let d := otherQuestionnaireKeys.foldl (fun d k =>
    match dlookup normalized k with
    | some (some s) => dset d k (.vstr s)
    | some none => dset d k .vnone
    | none => d) d
  pure d

/-- Per-checkbox body of the _process_extracted_fields loop. -/
def checkboxStep (d : Dict Value) (p : String × Bool) : Dict Value :=
  let clean_name := strTrim (strLower p.1)
  if containsSubstr clean_name "red" && containsSubstr clean_name "seal" then
    dset d "red_seal_status" (.vstr (if p.2 then "Yes" else "No"))
  else if containsSubstr clean_name "travel" then
    dset d "willing_to_travel" (.vbool p.2)
  else if containsSubstr clean_name "overtime" then
    dset d "overtime_willing" (.vbool p.2)
  else if containsSubstr clean_name "union" then
    dset d "union_member" (.vbool p.2)
  else d

/-- Per-radio-group body of the _process_extracted_fields loop. -/
def radioStep (d : Dict Value) (p : String × RadioInfo) : Dict Value :=
  let clean_name := strTrim (strLower p.1)
  match p.2.selected with
  | some sel =>
    if sel ≠ "" then
      if containsSubstr clean_name "red" && containsSubstr clean_name "seal" then
        dset d "red_seal_status" (.vstr sel)
      else if containsSubstr clean_name "experience" then
        dset d "years_experience" (.vstr sel)
      else dset d clean_name (.vstr sel)
    else d
  | none => d

/-- Model of _process_extracted_fields: questionnaire data from the text
fields, then the checkbox and radio passes. -/
def process_extracted_fields (r : ExtractAllResult) : Except String (Dict Value) := do
  let d ← extract_questionnaire_data r.text_fields
  let d := r.checkboxes.foldl checkboxStep d
  pure (r.radio_buttons.foldl radioStep d)

/-- The accumulator the extract_all_fields classification loop starts
from. -/
def emptyExtract : ExtractAllResult := ⟨true, [], [], [], [], [], none⟩

/-- Per-field body of the extract_all_fields loop: classify by field type
into text fields, radio groups, checkboxes, or other fields. -/
def classifyField (acc : ExtractAllResult) (nf : String × FieldDict) : ExtractAllResult :=
  let field_name := nf.1
  let f := nf.2
  if f.FT = some "/Tx" then
    { acc with text_fields := dset acc.text_fields field_name (get_field_value f.V) }
  else if f.FT = some "/Btn" then
    if f.Ff &&& 65536 ≠ 0 then
      let info : RadioInfo := ⟨get_radio_value f.V, get_radio_options f.Opt f.Kids⟩
      { acc with radio_buttons := dset acc.radio_buttons field_name info }
    else
      { acc with checkboxes := dset acc.checkboxes field_name (is_checkbox_checked f.V f.AS) }
  else
    let tstr : String := match f.FT with | some s => s | none => "None"
    let vstr : Option String :=
      match f.V with
      | some v => if pdfTruthy v then some (pdfValToStr v) else none
      | none => none
    { acc with other_fields := dset acc.other_fields field_name ⟨tstr, vstr⟩ }

/-- Model of extract_all_fields: a read failure or an internal processing
error yields has_form_fields False with the error recorded; a document
without an AcroForm yields has_form_fields False; otherwise the fields are
classified and the questionnaire data derived. -/
def extract_all_fields (input : PdfRead) : ExtractAllResult :=
  match input with
  | .failure msg => ⟨false, [], [], [], [], [], some msg⟩
  | .document hasAcroForm fields =>
    if !hasAcroForm then ⟨false, [], [], [], [], [], none⟩
    else
      let r := fields.foldl classifyField emptyExtract
      match process_extracted_fields r with
      | .ok qd => { r with questionnaire_data := qd }
      | .error msg => ⟨false, [], [], [], [], [], some msg⟩

/-! ## PillowFormEnhancer (pillow_form_enhancer.py)

Images are modelled as a width, a height, and an 8-bit luminance per pixel
coordinate; the Pillow and scipy primitives used by the enhancer are
modelled pointwise at their documented semantics, and every one of them
returns a fresh image carrying the input dimensions. -/

/-- A rasterised page: dimensions and the luminance at each coordinate. -/
structure Img where
  width : Nat
  height : Nat
  px : Nat → Nat → Nat

/-- Clamp an intensity to the 8-bit range. -/
def clamp255 (n : Int) : Nat := (min 255 (max 0 n)).toNat

/-- Sum of all pixel values of an image. -/
def sumPixels (i : Img) : Nat :=
  ((List.range i.height).map (fun y =>
    ((List.range i.width).map (fun x => i.px x y)).foldl (· + ·) 0)).foldl (· + ·) 0

/-- Mean luminance, the degenerate solid tone of ImageEnhance.Contrast. -/
def meanLum (i : Img) : Nat := sumPixels i / (i.width * i.height)

/-- ImageEnhance.Contrast(image).enhance(num/den): interpolate each pixel
between the mean tone and itself by the factor. -/
def contrastEnh (i : Img) (num den : Int) : Img :=
  let m : Int := meanLum i
  ⟨i.width, i.height, fun x y => clamp255 (((den - num) * m + num * i.px x y) / den)⟩

/-- A three-by-three convolution with border pixels passed through, the
shape of every ImageFilter kernel the enhancer uses. -/
def conv3 (i : Img) (k00 k01 k02 k10 k11 k12 k20 k21 k22 scale : Int) : Img :=
  ⟨i.width, i.height, fun x y =>
    if x = 0 ∨ y = 0 ∨ i.width ≤ x + 1 ∨ i.height ≤ y + 1 then i.px x y
    else clamp255 ((k00 * i.px (x - 1) (y - 1) + k01 * i.px x (y - 1) + k02 * i.px (x + 1) (y - 1) +
      k10 * i.px (x - 1) y + k11 * i.px x y + k12 * i.px (x + 1) y +
      k20 * i.px (x - 1) (y + 1) + k21 * i.px x (y + 1) + k22 * i.px (x + 1) (y + 1)) / scale)⟩

/-- ImageFilter.FIND_EDGES. -/
def findEdgesFilter (i : Img) : Img := conv3 i (-1) (-1) (-1) (-1) 8 (-1) (-1) (-1) (-1) 1

/-- ImageFilter.EDGE_ENHANCE_MORE. -/
def edgeEnhanceMoreFilter (i : Img) : Img := conv3 i (-1) (-1) (-1) (-1) 9 (-1) (-1) (-1) (-1) 1

/-- ImageFilter.SMOOTH, the degenerate image of ImageEnhance.Sharpness. -/
def smoothFilter (i : Img) : Img := conv3 i 1 1 1 1 5 1 1 1 1 13

/-- Image.blend(a, b, num/den). -/
def blendImg (a b : Img) (num den : Int) : Img :=
  ⟨a.width, a.height, fun x y => clamp255 (((den - num) * a.px x y + num * b.px x y) / den)⟩

/-- ImageEnhance.Sharpness(image).enhance(num/den): blend from the smoothed
degenerate toward the image. -/
def sharpnessEnh (i : Img) (num den : Int) : Img := blendImg (smoothFilter i) i num den

/-- ImageOps.grayscale on the luminance model: the identity map on pixels
of a fresh image. -/
def grayscaleImg (i : Img) : Img := ⟨i.width, i.height, fun x y => i.px x y⟩

/-- Image.point with the two-sided threshold lambda of the enhancer. -/
def pointThreshold (i : Img) (t : Nat) : Img :=
  ⟨i.width, i.height, fun x y => if i.px x y < t then 0 else 255⟩

/-- ImageOps.invert. -/
def invertImg (i : Img) : Img := ⟨i.width, i.height, fun x y => 255 - i.px x y⟩

/-- scipy binary_dilation of the black mask with the default cross
structure and one iteration, written back as a black-and-white image;
coordinates outside the grid count as background. -/
def dilateBlack (i : Img) : Img :=
  ⟨i.width, i.height, fun x y =>
    let black : Nat → Nat → Bool := fun a b =>
      decide (a < i.width) && decide (b < i.height) && decide (i.px a b = 0)
    if black x y || (decide (0 < x) && black (x - 1) y) || black (x + 1) y ||
        (decide (0 < y) && black x (y - 1)) || black x (y + 1) then 0 else 255⟩

/-- Model of enhance_for_checkboxes: grayscale, checkbox threshold 180,
edge detection, and edge contrast boost; returns the binary and the
enhanced-edges images. -/
def enhance_for_checkboxes (image : Img) : Img × Img :=
  let gray := grayscaleImg image
  let binary := pointThreshold gray 180
  let edges := findEdgesFilter binary
  let enhanced_edges := contrastEnh edges 2 1
  (binary, enhanced_edges)

/-- Model of enhance_for_radio_buttons: triple contrast, grayscale, radio
threshold 200, and one dilation pass reconnecting broken fills. -/
def enhance_for_radio_buttons (image : Img) : Img :=
  let high_contrast := contrastEnh image 3 1
  let gray := grayscaleImg high_contrast
  let binary := pointThreshold gray 200
  dilateBlack binary

/-- Model of combined_enhancement: double contrast, sharpness five halves,
grayscale, edge enhancement, and a thirty-percent blend of the edges over
the grayscale. -/
def combined_enhancement (image : Img) : Img :=
  let enhanced := contrastEnh image 2 1
  let enhanced := sharpnessEnh enhanced 5 2
  let gray := grayscaleImg enhanced
  let edges := edgeEnhanceMoreFilter gray
  blendImg gray edges 3 10

/-- Model of _high_contrast_version: grayscale, quintuple contrast, and
threshold 150. -/
def high_contrast_version (image : Img) : Img :=
  let gray := grayscaleImg image
  let high_contrast := contrastEnh gray 5 1
  pointThreshold high_contrast 150

/-- Model of _inverted_version: grayscale, inversion, and double
contrast. -/
def inverted_version (image : Img) : Img :=
  let gray := grayscaleImg image
  let inverted := invertImg gray
  contrastEnh inverted 2 1

/-- Model of create_enhanced_versions, abstracted over the enhancement
steps so the try and except structure is explicit: a failed image open
propagates (the except block reopens the same path and fails again), a
failure inside the versions construction degrades to the single original
entry built from a reopen of the same path. -/
def create_enhanced_versions_gen
    (enhCheckbox : Img → Except Unit (Img × Img))
    (enhRadio enhCombined enhHighContrast enhInverted : Img → Except Unit Img)
    (load : Except Unit Img) : Except Unit (List (String × Img)) :=
  match load with
  | .error e => .error e
  | .ok img =>
    match (do
      let cb ← enhCheckbox img
      let radio ← enhRadio img
      let combined ← enhCombined img
      let high_contrast ← enhHighContrast img
      let inverted ← enhInverted img
      pure [("original", img), ("checkbox_binary", cb.1), ("checkbox_edges", cb.2),
            ("radio_enhanced", radio), ("combined", combined),
            ("high_contrast", high_contrast), ("inverted", inverted)] :
        Except Unit (List (String × Img))) with
    | .ok versions => .ok versions
    | .error _ => load.map (fun img2 => [("original", img2)])

/-- Model of create_enhanced_versions with the concrete enhancement steps
of the source, which are total. -/
def create_enhanced_versions (load : Except Unit Img) : Except Unit (List (String × Img)) :=
  create_enhanced_versions_gen
    (fun i => .ok (enhance_for_checkboxes i))
    (fun i => .ok (enhance_for_radio_buttons i))
    (fun i => .ok (combined_enhancement i))
    (fun i => .ok (high_contrast_version i))
    (fun i => .ok (inverted_version i))
    load

/-! ## Concrete inputs used by counterexamples and witnesses -/

/-- A final_data dict carrying one recorded conflict. -/
def conflictedFinalData : Dict Value :=
  [("red_seal_status", .vstr "Yes"),
   ("red_seal_status_conflict", .vconflict (.vstr "Yes") (.vstr "No"))]

/-- A one-page vision analysis whose single question reports a selection
absent from the available options. -/
def inconsistentPages : List PageAnalysis :=
  [⟨"page_1.png", none,
    [⟨some "1", some "Do you have your Red Seal?", some "radio_button", none,
      ["Yes", "No"], ["Maybe"], [], none⟩]⟩]

/-- The response record the combining code stores for that question. -/
def inconsistentRecord : ResponseRecord :=
  ⟨some "Do you have your Red Seal?", ["Maybe"], [], none, ["Yes", "No"]⟩

/-- Extracted data of a first rendering variant. -/
def variantDataA : Dict Value :=
  [("red_seal_status", .vstr "Yes"), ("years_experience", .vint 5)]

/-- Extracted data of a second rendering variant, reporting a field the
first one misses. -/
def variantDataB : Dict Value := [("willing_to_travel", .vstr "Yes")]

/-- A vision-results dict with two versions reporting disjoint fields. -/
def twoVariantVisionData : List (String × Option (Dict Value)) :=
  [("original", some variantDataA), ("combined", some variantDataB)]

/-- A one-page analysis with a required radio question left unselected. -/
def unselectedRadioPages : List PageAnalysis :=
  [⟨"page_1.png", none,
    [⟨some "3", some "Do you have your Red Seal?", some "radio_button", none,
      ["Yes", "No"], [], [], none⟩]⟩]

/-- A one-by-one test image. -/
def img0 : Img := ⟨1, 1, fun _ _ => 0⟩

/-- The versions list create_enhanced_versions computes for img0. -/
def img0Versions : List (String × Img) :=
  [("original", img0),
   ("checkbox_binary", (enhance_for_checkboxes img0).1),
   ("checkbox_edges", (enhance_for_checkboxes img0).2),
   ("radio_enhanced", enhance_for_radio_buttons img0),
   ("combined", combined_enhancement img0),
   ("high_contrast", high_contrast_version img0),
   ("inverted", inverted_version img0)]

/-! ## Dictionary lemmas -/

theorem dlookup_dset_self {α : Type} (d : Dict α) (k : String) (v : α) :
    dlookup (dset d k v) k = some v := by
  induction d with
  | nil => simp [dset, dlookup]
  | cons p rest ih =>
    obtain ⟨k0, v0⟩ := p
    by_cases h : k0 = k
    · simp [dset, h, dlookup]
    · simp [dset, h, dlookup, ih]

theorem dlookup_dset_ne {α : Type} (d : Dict α) (k k' : String) (v : α) (h : k ≠ k') :
    dlookup (dset d k v) k' = dlookup d k' := by
  induction d with
  | nil => simp [dset, dlookup, h]
  | cons p rest ih =>
    obtain ⟨k0, v0⟩ := p
    by_cases h0 : k0 = k
    · subst h0; simp [dset, dlookup, h]
    · simp [dset, h0, dlookup, ih]

theorem mem_of_dlookup {α : Type} {d : Dict α} {k : String} {v : α}
    (h : dlookup d k = some v) : (k, v) ∈ d := by
  induction d with
  | nil => simp [dlookup] at h
  | cons p rest ih =>
    obtain ⟨k0, v0⟩ := p
    by_cases h0 : k0 = k
    · subst h0
      simp [dlookup] at h
      subst h
      exact List.mem_cons_self _ _
    · simp [dlookup, h0] at h
      exact List.mem_cons_of_mem _ (ih h)

theorem mem_dset {α : Type} {d : Dict α} {k0 : String} {v0 : α} {k : String} {v : α}
    (h : (k, v) ∈ dset d k0 v0) : (k, v) ∈ d ∨ (k = k0 ∧ v = v0) := by
  induction d with
  | nil =>
    simp [dset] at h
    exact Or.inr h
  | cons p rest ih =>
    obtain ⟨k1, v1⟩ := p
    by_cases h1 : k1 = k0
    · subst h1
      simp [dset] at h
      rcases h with ⟨hk, hv⟩ | hm
      · exact Or.inr ⟨hk, hv⟩
      · exact Or.inl (List.mem_cons_of_mem _ hm)
    · simp [dset, h1] at h
      rcases h with ⟨hk, hv⟩ | hm
      · exact Or.inl (by simp [hk, hv])
      · rcases ih hm with hm' | he
        · exact Or.inl (List.mem_cons_of_mem _ hm')
        · exact Or.inr he

/-! ## C1: aggregate confidence versus recorded conflicts -/

/-- C1 counterexample: with the PDF source present, a vision result
present, and the PDF as primary source, the base score 1.2 exceeds the
upper clamp, so an extraction run with one recorded conflict receives
aggregate confidence 1, exactly the same as the run with no conflict, and
not strictly below the form-field source confidence of 1.  The claimed
strict decrease therefore fails. -/
theorem calculate_confidence_clamped_conflict_cex :
    calculate_confidence true true true conflictedFinalData = 1 ∧
    calculate_confidence true true true [] = 1 := by
  have h1 : countConflicts conflictedFinalData = 1 := by decide
  have h2 : countConflicts ([] : Dict Value) = 0 := rfl
  constructor
  · simp only [calculate_confidence, h1]
    norm_num
  · simp only [calculate_confidence, h2]
    norm_num

/-- C1 amended: recording additional conflicts never increases the
aggregate confidence, and strictly decreases it whenever the
smaller-conflict confidence lies strictly inside the clamp interval; at
the clamps the decrease can collapse to equality. -/
theorem calculate_confidence_conflict_antitone
    (pdfH visionP primaryP : Bool) (d d' : Dict Value)
    (h : countConflicts d < countConflicts d') :
    calculate_confidence pdfH visionP primaryP d' ≤
      calculate_confidence pdfH visionP primaryP d ∧
    (0 < calculate_confidence pdfH visionP primaryP d →
      calculate_confidence pdfH visionP primaryP d < 1 →
      calculate_confidence pdfH visionP primaryP d' <
        calculate_confidence pdfH visionP primaryP d) := by
  have hexp : ∀ dd : Dict Value, calculate_confidence pdfH visionP primaryP dd =
      min 1 (max 0 (((if pdfH then 6/10 else 0) + (if visionP then 4/10 else 0) +
        (if primaryP then 2/10 else 0) : ℚ) - (countConflicts dd : ℚ) * (1/10))) := by
    intro dd; rfl
  set b : ℚ := (if pdfH then 6/10 else 0) + (if visionP then 4/10 else 0) +
    (if primaryP then 2/10 else 0) with hbdef
  have hnm : ((countConflicts d : ℚ)) < ((countConflicts d' : ℚ)) := by exact_mod_cast h
  constructor
  · rw [hexp, hexp]
    apply min_le_min le_rfl
    apply max_le_max le_rfl
    linarith
  · intro h0 h1
    rw [hexp] at h0 h1 ⊢
    rw [hexp]
    have hX : max 0 (b - (countConflicts d : ℚ) * (1/10)) < 1 := by
      rcases min_lt_iff.mp h1 with hlt | hlt
      · exact absurd hlt (lt_irrefl 1)
      · exact hlt
    rw [min_eq_right (le_of_lt hX)] at h0 ⊢
    have hY : 0 < b - (countConflicts d : ℚ) * (1/10) := by
      rcases lt_max_iff.mp h0 with hlt | hlt
      · exact absurd hlt (lt_irrefl 0)
      · exact hlt
    rw [max_eq_right (le_of_lt hY)]
    calc min 1 (max 0 (b - (countConflicts d' : ℚ) * (1/10)))
        ≤ max 0 (b - (countConflicts d' : ℚ) * (1/10)) := min_le_right _ _
      _ < b - (countConflicts d : ℚ) * (1/10) := by
          rcases le_or_lt (b - (countConflicts d' : ℚ) * (1/10)) 0 with hle | hlt
          · rw [max_eq_left hle]; exact hY
          · rw [max_eq_right (le_of_lt hlt)]; linarith

/-- C1 witness: with a vision-only base of 0.4, one recorded conflict
strictly lowers the confidence. -/
theorem calculate_confidence_conflict_antitone_witness :
    calculate_confidence false true false [("x_conflict", Value.vnone)] <
      calculate_confidence false true false [] :=
  (calculate_confidence_conflict_antitone false true false [] [("x_conflict", Value.vnone)]
      (by decide)).2
    (by simp only [calculate_confidence]; norm_num [countConflicts])
    (by simp only [calculate_confidence]; norm_num [countConflicts])

/-! ## C3: cross validation of PDF versus vision values -/

theorem cvStep_preserve (pdf vision : Dict Value) (g k : String)
    (h1 : k ≠ g) (h2 : k ≠ g ++ "_conflict") :
    dlookup (cvStep pdf vision g) k = dlookup pdf k := by
  unfold cvStep
  dsimp only
  split_ifs with hA hB
  · exact dlookup_dset_ne _ _ _ _ (Ne.symm h1)
  · exact dlookup_dset_ne _ _ _ _ (Ne.symm h2)
  · rfl

theorem cvStep_conflict (pdf vision : Dict Value) (f : String) (pv vv : Value)
    (hp : dlookup pdf f = some pv) (hpt : truthy pv = true)
    (hv : dlookup vision f = some vv) (hvt : truthy vv = true) (hne : pv ≠ vv) :
    cvStep pdf vision f = dset pdf (f ++ "_conflict") (.vconflict pv vv) := by
  unfold cvStep
  rw [hp, hv]
  simp [truthyO, hpt, hvt, hne]

/-- C3 counterexample: the willing_to_travel field is outside the critical
list, so when the PDF and vision values both exist and disagree the PDF
dict is returned untouched and no conflict entry is recorded, contrary to
the claim that every disagreeing pair is recorded as a conflict. -/
theorem cross_validate_noncritical_silent_cex :
    cross_validate_results [("willing_to_travel", Value.vstr "Yes")]
        [("willing_to_travel", Value.vstr "No")] =
      [("willing_to_travel", Value.vstr "Yes")] ∧
    dlookup (cross_validate_results [("willing_to_travel", Value.vstr "Yes")]
        [("willing_to_travel", Value.vstr "No")]) "willing_to_travel_conflict" = none := by
  constructor <;> decide

/-- C3 amended: for each of the three critical fields, when the PDF and
vision values are both truthy and differ, cross validation keeps the PDF
value as the final value and records the disagreeing pair under the
conflict key; fields outside the critical list are not compared. -/
theorem cross_validate_critical_conflict
    (pdf vision : Dict Value) (f : String) (pv vv : Value)
    (hf : f ∈ criticalFields)
    (hp : dlookup pdf f = some pv) (hpt : truthy pv = true)
    (hv : dlookup vision f = some vv) (hvt : truthy vv = true)
    (hne : pv ≠ vv) :
    dlookup (cross_validate_results pdf vision) f = some pv ∧
    dlookup (cross_validate_results pdf vision) (f ++ "_conflict") =
      some (.vconflict pv vv) := by
  have hcv : cross_validate_results pdf vision =
      cvStep (cvStep (cvStep pdf vision "red_seal_status") vision "trade_licenses")
        vision "years_experience" := rfl
  fin_cases hf
  · rw [hcv, cvStep_conflict pdf vision _ pv vv hp hpt hv hvt hne]
    constructor
    · rw [cvStep_preserve _ _ _ _ (by decide) (by decide),
        cvStep_preserve _ _ _ _ (by decide) (by decide),
        dlookup_dset_ne _ _ _ _ (by decide)]
      exact hp
    · rw [cvStep_preserve _ _ _ _ (by decide) (by decide),
        cvStep_preserve _ _ _ _ (by decide) (by decide)]
      exact dlookup_dset_self _ _ _
  · have hp1 : dlookup (cvStep pdf vision "red_seal_status") "trade_licenses" = some pv := by
      rw [cvStep_preserve _ _ _ _ (by decide) (by decide)]; exact hp
    rw [hcv, cvStep_conflict _ vision _ pv vv hp1 hpt hv hvt hne]
    constructor
    · rw [cvStep_preserve _ _ _ _ (by decide) (by decide),
        dlookup_dset_ne _ _ _ _ (by decide)]
      exact hp1
    · rw [cvStep_preserve _ _ _ _ (by decide) (by decide)]
      exact dlookup_dset_self _ _ _
  · have hp1 : dlookup (cvStep pdf vision "red_seal_status") "years_experience" = some pv := by
      rw [cvStep_preserve _ _ _ _ (by decide) (by decide)]; exact hp
    have hp2 : dlookup (cvStep (cvStep pdf vision "red_seal_status") vision "trade_licenses")
        "years_experience" = some pv := by
      rw [cvStep_preserve _ _ _ _ (by decide) (by decide)]; exact hp1
    rw [hcv, cvStep_conflict _ vision _ pv vv hp2 hpt hv hvt hne]
    constructor
    · rw [dlookup_dset_ne _ _ _ _ (by decide)]
      exact hp2
    · exact dlookup_dset_self _ _ _

/-- C3 witness: a concrete red-seal disagreement keeps the PDF value and
records the conflict pair. -/
theorem cross_validate_critical_conflict_witness :
    dlookup (cross_validate_results [("red_seal_status", Value.vstr "Yes")]
        [("red_seal_status", Value.vstr "No")]) "red_seal_status" =
      some (Value.vstr "Yes") ∧
    dlookup (cross_validate_results [("red_seal_status", Value.vstr "Yes")]
        [("red_seal_status", Value.vstr "No")]) ("red_seal_status" ++ "_conflict") =
      some (Value.vconflict (Value.vstr "Yes") (Value.vstr "No")) :=
  cross_validate_critical_conflict _ _ _ _ _ (by decide) (by decide) (by decide)
    (by decide) (by decide) (by decide)

/-! ## C5: required selections missing from every source -/

/-- C5 counterexample: a required radio question with no detected
selection makes the Dayforce handler store the sentinel string REQUIRES
MANUAL VERIFICATION as the red-seal value, not a None final value, and no
0.0 confidence is attached anywhere in this path; the question is flagged
in the warning list. -/
theorem dayforce_sentinel_not_none_cex :
    process_dayforce_questionnaire unselectedRadioPages [] =
      ⟨true, [⟨some "3", some "Do you have your Red Seal?", ["Yes", "No"]⟩],
        "REQUIRES MANUAL VERIFICATION", "REQUIRES MANUAL VERIFICATION"⟩ := by
  decide

/-- C5 amended: when no override is present and every red-seal question
has an empty selection list, the extracted red-seal value is the
manual-verification sentinel string, and every radio question with no
selection is listed among the affected questions of the Dayforce warning
(whose manual_verification_required flag is always true); no option value
is ever invented. -/
theorem extract_red_seal_no_selection
    (pages : List PageAnalysis) (overrides : Dict String)
    (hov : dlookup overrides "red_seal" = none)
    (hsel : ∀ q, q ∈ allQuestionsOf pages →
      containsSubstr (strLower (q.question_text.getD "")) "red seal" = true →
      q.actual_selections = []) :
    extract_red_seal pages overrides = "REQUIRES MANUAL VERIFICATION" ∧
    (∀ q, q ∈ allQuestionsOf pages → q.question_type = some "radio_button" →
      q.actual_selections = [] →
      (⟨q.question_number, q.question_text, q.all_available_options⟩ : AffectedQuestion) ∈
        collect_unselected_radio pages) := by
  constructor
  · unfold extract_red_seal
    rw [hov]
    have hfind : (allQuestionsOf pages).find? (fun q =>
        containsSubstr (strLower (q.question_text.getD "")) "red seal" &&
          !q.actual_selections.isEmpty) = none := by
      rw [List.find?_eq_none]
      intro q hq
      by_cases hc : containsSubstr (strLower (q.question_text.getD "")) "red seal" = true
      · rw [hc, hsel q hq hc]
        simp
      · rw [Bool.not_eq_true] at hc
        simp [hc]
    rw [hfind]
  · intro q hq ht hs
    unfold collect_unselected_radio
    rw [List.mem_filterMap]
    exact ⟨q, hq, by rw [if_pos ⟨ht, hs⟩]⟩

/-- C5 witness: the concrete unselected radio page yields the sentinel and
the flagged question. -/
theorem extract_red_seal_no_selection_witness :
    extract_red_seal unselectedRadioPages [] = "REQUIRES MANUAL VERIFICATION" ∧
    (⟨some "3", some "Do you have your Red Seal?", ["Yes", "No"]⟩ : AffectedQuestion) ∈
      collect_unselected_radio unselectedRadioPages := by
  have h := extract_red_seal_no_selection unselectedRadioPages [] (by decide) (by decide)
  exact ⟨h.1,
    h.2 ⟨some "3", some "Do you have your Red Seal?", some "radio_button", none,
      ["Yes", "No"], [], [], none⟩ (by decide) (by decide) (by decide)⟩

/-! ## C6: missing or unreadable form sources are recoverable negatives -/

/-- C6: extract_all_fields reports has_form_fields false both when the
read raises and when the document carries no AcroForm dictionary; being a
total function of the read outcome, it propagates no exception to its
caller. -/
theorem extract_all_fields_negative :
    ∀ (msg : String) (fields : List (String × FieldDict)),
      (extract_all_fields (.failure msg)).has_form_fields = false ∧
      (extract_all_fields (.document false fields)).has_form_fields = false := by
  intro msg fields
  exact ⟨rfl, rfl⟩

/-! ## C10: checkbox state reading -/

/-- C10: a checkbox field with neither a stored value nor an appearance
state reads as unchecked, and a checked result arises only when the value
entry is a recognised name marker, the value entry is a string whose
lowercase form is a recognised textual marker, or the appearance state is
a recognised name marker. -/
theorem is_checkbox_checked_only_on_markers :
    is_checkbox_checked none none = false ∧
    (∀ V AS, is_checkbox_checked V AS = true →
      (∃ s, V = some (PdfVal.name s) ∧ s ∈ (["/Yes", "/On", "/1"] : List String)) ∨
      (∃ s, V = some (PdfVal.str s) ∧
        strLower s ∈ (["yes", "on", "1", "true", "x"] : List String)) ∨
      (∃ s, AS = some (PdfVal.name s) ∧ s ∈ (["/Yes", "/On", "/1"] : List String))) := by
  have hAS : ∀ a, checkAS a = true →
      ∃ s, a = some (PdfVal.name s) ∧ s ∈ (["/Yes", "/On", "/1"] : List String) := by
    intro a ha
    rcases a with _ | v
    · simp [checkAS] at ha
    · rcases v with s | s | n
      · simp only [checkAS] at ha
        split_ifs at ha with hs
        exact ⟨s, rfl, of_decide_eq_true ha⟩
      · simp [checkAS] at ha
      · simp [checkAS] at ha
  constructor
  · rfl
  · intro V AS h
    unfold is_checkbox_checked at h
    rcases V with _ | v
    · exact Or.inr (Or.inr (hAS AS h))
    · rcases v with s | s | n <;> dsimp only at h
      · by_cases hp : pdfTruthy (PdfVal.name s) = true
        · rw [if_pos hp] at h
          exact Or.inl ⟨s, rfl, of_decide_eq_true h⟩
        · rw [if_neg hp] at h
          exact Or.inr (Or.inr (hAS AS h))
      · by_cases hp : pdfTruthy (PdfVal.str s) = true
        · rw [if_pos hp] at h
          exact Or.inr (Or.inl ⟨s, rfl, of_decide_eq_true h⟩)
        · rw [if_neg hp] at h
          exact Or.inr (Or.inr (hAS AS h))
      · by_cases hp : pdfTruthy (PdfVal.int n) = true
        · rw [if_pos hp] at h
          exact Or.inr (Or.inr (hAS AS h))
        · rw [if_neg hp] at h
          exact Or.inr (Or.inr (hAS AS h))

/-- C10 witness: a name value equal to the Yes marker reads as checked,
and the marker characterisation applies to it. -/
theorem is_checkbox_checked_only_on_markers_witness :
    is_checkbox_checked (some (PdfVal.name "/Yes")) none = true ∧
    ((∃ s, (some (PdfVal.name "/Yes")) = some (PdfVal.name s) ∧
        s ∈ (["/Yes", "/On", "/1"] : List String)) ∨
     (∃ s, (some (PdfVal.name "/Yes")) = some (PdfVal.str s) ∧
        strLower s ∈ (["yes", "on", "1", "true", "x"] : List String)) ∨
     (∃ s, (none : Option PdfVal) = some (PdfVal.name s) ∧
        s ∈ (["/Yes", "/On", "/1"] : List String))) :=
  ⟨by decide,
    is_checkbox_checked_only_on_markers.2 (some (PdfVal.name "/Yes")) none (by decide)⟩

/-! ## C2: selections pass through the combining step verbatim -/

theorem combineQuestionStep_responses (acc : CombinedProfile) (q : QuestionResp) :
    (combineQuestionStep acc q).actual_responses =
      dset acc.actual_responses (responseKey q) (responseOf q) := by
  unfold combineQuestionStep
  cases q.equipment_specific with
  | none => rfl
  | some eq =>
    dsimp only
    split <;> rfl

theorem foldQ_mem (qs : List QuestionResp) :
    ∀ (acc : CombinedProfile) (k : String) (r : ResponseRecord),
      (k, r) ∈ (qs.foldl combineQuestionStep acc).actual_responses →
      (k, r) ∈ acc.actual_responses ∨
        ∃ q, q ∈ qs ∧ k = responseKey q ∧ r = responseOf q := by
  induction qs with
  | nil => intro acc k r h; exact Or.inl h
  | cons q qs ih =>
    intro acc k r h
    rw [List.foldl_cons] at h
    rcases ih _ _ _ h with h1 | ⟨q', hq', hk, hr⟩
    · rw [combineQuestionStep_responses] at h1
      rcases mem_dset h1 with h2 | ⟨hk, hr⟩
      · exact Or.inl h2
      · exact Or.inr ⟨q, List.mem_cons_self _ _, hk, hr⟩
    · exact Or.inr ⟨q', List.mem_cons_of_mem _ hq', hk, hr⟩

theorem combinePageStep_name_responses (acc : CombinedProfile) (page : PageAnalysis) :
    ((match page.candidate_name with
      | some n => if n ≠ "" then { acc with candidate_name := some n } else acc
      | none => acc) : CombinedProfile).actual_responses = acc.actual_responses := by
  cases page.candidate_name with
  | none => rfl
  | some n =>
    dsimp only
    split <;> rfl

theorem foldP_mem (ps : List PageAnalysis) :
    ∀ (acc : CombinedProfile) (k : String) (r : ResponseRecord),
      (k, r) ∈ (ps.foldl combinePageStep acc).actual_responses →
      (k, r) ∈ acc.actual_responses ∨
        ∃ q, q ∈ allQuestionsOf ps ∧ k = responseKey q ∧ r = responseOf q := by
  induction ps with
  | nil => intro acc k r h; exact Or.inl h
  | cons p ps ih =>
    intro acc k r h
    rw [List.foldl_cons] at h
    have hq : allQuestionsOf (p :: ps) =
        p.questions_and_responses ++ allQuestionsOf ps := by
      simp [allQuestionsOf]
    rcases ih _ _ _ h with h1 | ⟨q, hmem, hk, hr⟩
    · unfold combinePageStep at h1
      rcases foldQ_mem _ _ _ _ h1 with h2 | ⟨q, hmem, hk, hr⟩
      · rw [combinePageStep_name_responses] at h2
        exact Or.inl h2
      · refine Or.inr ⟨q, ?_, hk, hr⟩
        rw [hq]
        exact List.mem_append_left _ hmem
    · refine Or.inr ⟨q, ?_, hk, hr⟩
      rw [hq]
      exact List.mem_append_right _ hmem

/-- C2 counterexample: a vision payload that reports the selection Maybe
for a question whose available options are Yes and No passes the parsing
and combining steps untouched: the stored response record still carries
the out-of-options selection, so no subset filtering occurs before
reconciliation. -/
theorem combine_no_subset_filtering_cex :
    dlookup (combine_page_analyses inconsistentPages).actual_responses "q1_red_seal" =
      some inconsistentRecord ∧
    "Maybe" ∈ inconsistentRecord.selections ∧
    "Maybe" ∉ inconsistentRecord.all_options := by
  refine ⟨by decide, by decide, by decide⟩

/-- C2 amended: the combining step stores every parsed question verbatim:
each record reachable in actual_responses originates from some parsed
question, with its actual_selections and all_available_options copied
unchanged; no option is dropped for being outside the available options,
so the subset invariant holds only when the extractor output already
satisfies it. -/
theorem combine_selections_verbatim
    (pages : List PageAnalysis) (k : String) (r : ResponseRecord)
    (h : dlookup (combine_page_analyses pages).actual_responses k = some r) :
    ∃ q, q ∈ allQuestionsOf pages ∧ k = responseKey q ∧ r = responseOf q := by
  have hr : (combine_page_analyses pages).actual_responses =
      (pages.foldl combinePageStep initProfile).actual_responses := rfl
  rw [hr] at h
  rcases foldP_mem _ _ _ _ (mem_of_dlookup h) with h1 | h2
  · simp [initProfile] at h1
  · exact h2

/-- C2 witness: the out-of-options record of the counterexample pages is
traced back to its originating parsed question. -/
theorem combine_selections_verbatim_witness :
    ∃ q, q ∈ allQuestionsOf inconsistentPages ∧ "q1_red_seal" = responseKey q ∧
      inconsistentRecord = responseOf q :=
  combine_selections_verbatim inconsistentPages "q1_red_seal" inconsistentRecord (by decide)

/-! ## C4: best-vision-result selection -/

theorem select_fold_spec (vd : List (String × Option (Dict Value))) :
    ∀ (b0 : Option BestResult) (s0 : ℚ),
      0 ≤ s0 →
      (∀ b, b0 = some b → b.score = s0) →
      (0 ≤ (vd.foldl selectStep (b0, s0)).2) ∧
      (∀ b, (vd.foldl selectStep (b0, s0)).1 = some b →
        b.score = (vd.foldl selectStep (b0, s0)).2) ∧
      s0 ≤ (vd.foldl selectStep (b0, s0)).2 ∧
      ((vd.foldl selectStep (b0, s0)).1 = b0 ∧ (vd.foldl selectStep (b0, s0)).2 = s0 ∨
        ∃ p d, p ∈ vd ∧ p.2 = some d ∧
          (vd.foldl selectStep (b0, s0)).1 = some ⟨p.1, d, scoreOf p.1 d⟩ ∧
          (vd.foldl selectStep (b0, s0)).2 = scoreOf p.1 d ∧ 0 < scoreOf p.1 d) ∧
      (∀ p d, p ∈ vd → p.2 = some d → scoreOf p.1 d ≤ (vd.foldl selectStep (b0, s0)).2) := by
  induction vd with
  | nil =>
    intro b0 s0 h0 hb
    refine ⟨h0, hb, le_refl _, Or.inl ⟨rfl, rfl⟩, ?_⟩
    intro p d hp
    simp at hp
  | cons p vd ih =>
    intro b0 s0 h0 hb
    rw [List.foldl_cons]
    rcases hp2 : p.2 with _ | data
    · have hstep : selectStep (b0, s0) p = (b0, s0) := by
        simp [selectStep, hp2]
      rw [hstep]
      obtain ⟨ha, hbx, hs, hor, hmax⟩ := ih b0 s0 h0 hb
      refine ⟨ha, hbx, hs, ?_, ?_⟩
      · rcases hor with h | ⟨p', d, hp', rest⟩
        · exact Or.inl h
        · exact Or.inr ⟨p', d, List.mem_cons_of_mem _ hp', rest⟩
      · intro p' d hp' hd
        rcases List.mem_cons.mp hp' with heq | hm
        · subst heq
          rw [hp2] at hd
          cases hd
        · exact hmax p' d hm hd
    · by_cases hlt : s0 < scoreOf p.1 data
      · have hstep : selectStep (b0, s0) p =
            (some ⟨p.1, data, scoreOf p.1 data⟩, scoreOf p.1 data) := by
          simp [selectStep, hp2, hlt]
        rw [hstep]
        have h0' : 0 ≤ scoreOf p.1 data := le_of_lt (lt_of_le_of_lt h0 hlt)
        have hb' : ∀ b, (some (⟨p.1, data, scoreOf p.1 data⟩ : BestResult)) = some b →
            b.score = scoreOf p.1 data := by
          intro b hbb
          cases hbb
          rfl
        obtain ⟨ha, hbx, hs, hor, hmax⟩ := ih _ _ h0' hb'
        refine ⟨ha, hbx, le_trans (le_of_lt hlt) hs, ?_, ?_⟩
        · rcases hor with ⟨h1, h2⟩ | ⟨p', d, hp', hd, h1, h2, h3⟩
          · exact Or.inr ⟨p, data, List.mem_cons_self _ _, hp2, h1, h2,
              lt_of_le_of_lt h0 hlt⟩
          · exact Or.inr ⟨p', d, List.mem_cons_of_mem _ hp', hd, h1, h2, h3⟩
        · intro p' d hp' hd
          rcases List.mem_cons.mp hp' with heq | hm
          · subst heq
            rw [hp2] at hd
            injection hd with hdd
            subst hdd
            exact hs
          · exact hmax p' d hm hd
      · have hstep : selectStep (b0, s0) p = (b0, s0) := by
          simp [selectStep, hp2, hlt]
        rw [hstep]
        obtain ⟨ha, hbx, hs, hor, hmax⟩ := ih b0 s0 h0 hb
        refine ⟨ha, hbx, hs, ?_, ?_⟩
        · rcases hor with h | ⟨p', d, hp', rest⟩
          · exact Or.inl h
          · exact Or.inr ⟨p', d, List.mem_cons_of_mem _ hp', rest⟩
        · intro p' d hp' hd
          rcases List.mem_cons.mp hp' with heq | hm
          · subst heq
            rw [hp2] at hd
            injection hd with hdd
            subst hdd
            exact le_trans (not_lt.mp hlt) hs
          · exact hmax p' d hm hd

/-- C4 amended: _select_best_vision_result performs no per-option merging
at all: when it returns a result, that result is the verbatim
extracted_data of a single input version, its score is that version
completeness score, the score is strictly positive, and no other version
scores higher; options reported only by lower-scoring versions are
discarded rather than max-merged. -/
theorem select_best_single_variant
    (vd : List (String × Option (Dict Value))) (r : BestResult)
    (h : select_best_vision_result vd = some r) :
    (∃ p, p ∈ vd ∧ p.2 = some r.data ∧ p.1 = r.version ∧
      r.score = scoreOf r.version r.data) ∧
    0 < r.score ∧
    (∀ p d, p ∈ vd → p.2 = some d → scoreOf p.1 d ≤ r.score) := by
  obtain ⟨ha, hbx, hs, hor, hmax⟩ :=
    select_fold_spec vd none 0 le_rfl (by intro b hbb; cases hbb)
  unfold select_best_vision_result at h
  rcases hor with ⟨h1, _⟩ | ⟨p, d, hp, hd, h1, h2, h3⟩
  · rw [h1] at h
    cases h
  · rw [h1] at h
    injection h with hr
    subst hr
    refine ⟨⟨p, hp, hd, rfl, rfl⟩, h3, ?_⟩
    intro p' d' hp' hd'
    have hle := hmax p' d' hp' hd'
    rw [h2] at hle
    exact hle

theorem scoreOf_variantA : scoreOf "original" variantDataA = 2 := by
  have hlen : (keyFields.filter (fun f => fieldScored variantDataA f)).length = 2 := by decide
  unfold scoreOf
  rw [hlen]
  norm_num [specializedVersions]
  decide

theorem scoreOf_variantB : scoreOf "combined" variantDataB = 1 := by
  have hlen : (keyFields.filter (fun f => fieldScored variantDataB f)).length = 1 := by decide
  unfold scoreOf
  rw [hlen]
  norm_num [specializedVersions]
  decide

theorem select_best_eval_twoVariant :
    select_best_vision_result twoVariantVisionData = some ⟨"original", variantDataA, 2⟩ := by
  have hstep1 : selectStep (none, (0 : ℚ)) ("original", some variantDataA) =
      (some ⟨"original", variantDataA, 2⟩, 2) := by
    simp only [selectStep]
    rw [scoreOf_variantA, if_pos (by norm_num : (0 : ℚ) < 2)]
  have hstep2 : selectStep (some ⟨"original", variantDataA, 2⟩, (2 : ℚ))
      ("combined", some variantDataB) = (some ⟨"original", variantDataA, 2⟩, 2) := by
    simp only [selectStep]
    rw [scoreOf_variantB, if_neg (by norm_num : ¬ ((2 : ℚ) < 1))]
  unfold select_best_vision_result twoVariantVisionData
  rw [List.foldl_cons, hstep1, List.foldl_cons, hstep2, List.foldl_nil]

/-- C4 counterexample: with two variants reporting disjoint fields, the
selection keeps the higher-scoring variant wholesale; the field reported
only by the other variant is absent from the merged data, so results are
not merged per option by maximum confidence but chosen per variant by a
completeness score. -/
theorem select_best_drops_variant_option_cex :
    select_best_vision_result twoVariantVisionData = some ⟨"original", variantDataA, 2⟩ ∧
    dlookup variantDataA "willing_to_travel" = none ∧
    dlookup variantDataB "willing_to_travel" = some (Value.vstr "Yes") :=
  ⟨select_best_eval_twoVariant, by decide, by decide⟩

/-- C4 witness: the single-variant characterisation applied to the
two-variant input, giving positivity and maximality of the winning
score. -/
theorem select_best_single_variant_witness :
    0 < (BestResult.mk "original" variantDataA 2).score ∧
    scoreOf "combined" variantDataB ≤ (BestResult.mk "original" variantDataA 2).score := by
  have hspec := select_best_single_variant twoVariantVisionData _ select_best_eval_twoVariant
  exact ⟨hspec.2.1,
    hspec.2.2 ("combined", some variantDataB) variantDataB (by decide) rfl⟩

/-! ## C7, C8, C9: the image enhancement pipeline -/

/-- C7: every rendering variant produced for a successfully loaded page
image carries exactly the input dimensions, and the original entry is the
loaded image object itself, untouched; every transform allocates a fresh
image. -/
theorem create_enhanced_versions_preserves_dims
    (img : Img) (versions : List (String × Img))
    (h : create_enhanced_versions (Except.ok img) = Except.ok versions) :
    (∀ p, p ∈ versions → p.2.width = img.width ∧ p.2.height = img.height) ∧
    dlookup versions "original" = some img := by
  have hc : create_enhanced_versions (Except.ok img) = Except.ok
      [("original", img),
       ("checkbox_binary", (enhance_for_checkboxes img).1),
       ("checkbox_edges", (enhance_for_checkboxes img).2),
       ("radio_enhanced", enhance_for_radio_buttons img),
       ("combined", combined_enhancement img),
       ("high_contrast", high_contrast_version img),
       ("inverted", inverted_version img)] := rfl
  rw [hc] at h
  injection h with h
  subst h
  constructor
  · intro p hp
    simp only [List.mem_cons, List.not_mem_nil, or_false] at hp
    rcases hp with rfl | rfl | rfl | rfl | rfl | rfl | rfl <;> exact ⟨rfl, rfl⟩
  · rfl

/-- C7 witness: the versions computed for the one-pixel test image all
keep its dimensions, and its original entry is the image itself. -/
theorem create_enhanced_versions_preserves_dims_witness :
    dlookup img0Versions "original" = some img0 :=
  (create_enhanced_versions_preserves_dims img0 img0Versions rfl).2

/-- C8: the pipeline reads nothing but the page image: two runs over
sources that hold the same image at the path produce identical version
mappings; every transform is a pure function and no randomness enters. -/
theorem create_enhanced_versions_deterministic
    (source1 source2 : String → Except Unit Img) (path : String)
    (h : source1 path = source2 path) :
    create_enhanced_versions (source1 path) = create_enhanced_versions (source2 path) := by
  rw [h]

/-- C8 witness: two runs over the same concrete source agree. -/
theorem create_enhanced_versions_deterministic_witness :
    create_enhanced_versions ((fun _ => Except.ok img0) "page_1.png") =
      create_enhanced_versions ((fun _ => Except.ok img0) "page_1.png") :=
  create_enhanced_versions_deterministic (fun _ => Except.ok img0)
    (fun _ => Except.ok img0) "page_1.png" rfl

/-- C9: for a path whose image loads, the result never propagates an
error, its first entry is always the original loaded image, and a failure
in any enhancement step degrades the result to exactly the single original
entry. -/
theorem create_enhanced_versions_gen_original
    (enhCB : Img → Except Unit (Img × Img))
    (enhR enhC enhH enhI : Img → Except Unit Img)
    (load : Except Unit Img) (img : Img) (h : load = Except.ok img) :
    create_enhanced_versions_gen enhCB enhR enhC enhH enhI load ≠ Except.error () ∧
    (∃ vs, create_enhanced_versions_gen enhCB enhR enhC enhH enhI load = Except.ok vs ∧
      vs.head? = some ("original", img)) ∧
    ((∃ e, enhCB img = Except.error e) ∨ (∃ e, enhR img = Except.error e) ∨
      (∃ e, enhC img = Except.error e) ∨ (∃ e, enhH img = Except.error e) ∨
      (∃ e, enhI img = Except.error e) →
      create_enhanced_versions_gen enhCB enhR enhC enhH enhI load =
        Except.ok [("original", img)]) := by
  subst h
  rcases hcb : enhCB img with e | cb
  · have hred : create_enhanced_versions_gen enhCB enhR enhC enhH enhI (Except.ok img) =
        Except.ok [("original", img)] := by
      unfold create_enhanced_versions_gen
      dsimp only
      rw [hcb]
      rfl
    exact ⟨fun hcon => Except.noConfusion (hred ▸ hcon),
      ⟨[("original", img)], hred, rfl⟩, fun _ => hred⟩
  · rcases hr : enhR img with e | radio
    · have hred : create_enhanced_versions_gen enhCB enhR enhC enhH enhI (Except.ok img) =
          Except.ok [("original", img)] := by
        unfold create_enhanced_versions_gen
        dsimp only
        rw [hcb, hr]
        rfl
      exact ⟨fun hcon => Except.noConfusion (hred ▸ hcon),
        ⟨[("original", img)], hred, rfl⟩, fun _ => hred⟩
    · rcases hc : enhC img with e | combined
      · have hred : create_enhanced_versions_gen enhCB enhR enhC enhH enhI (Except.ok img) =
            Except.ok [("original", img)] := by
          unfold create_enhanced_versions_gen
          dsimp only
          rw [hcb, hr, hc]
          rfl
        exact ⟨fun hcon => Except.noConfusion (hred ▸ hcon),
          ⟨[("original", img)], hred, rfl⟩, fun _ => hred⟩
      · rcases hh : enhH img with e | high
        · have hred : create_enhanced_versions_gen enhCB enhR enhC enhH enhI (Except.ok img) =
              Except.ok [("original", img)] := by
            unfold create_enhanced_versions_gen
            dsimp only
            rw [hcb, hr, hc, hh]
            rfl
          exact ⟨fun hcon => Except.noConfusion (hred ▸ hcon),
            ⟨[("original", img)], hred, rfl⟩, fun _ => hred⟩
        · rcases hi : enhI img with e | inverted
          · have hred : create_enhanced_versions_gen enhCB enhR enhC enhH enhI (Except.ok img) =
                Except.ok [("original", img)] := by
              unfold create_enhanced_versions_gen
              dsimp only
              rw [hcb, hr, hc, hh, hi]
              rfl
            exact ⟨fun hcon => Except.noConfusion (hred ▸ hcon),
              ⟨[("original", img)], hred, rfl⟩, fun _ => hred⟩
          · have hred : create_enhanced_versions_gen enhCB enhR enhC enhH enhI (Except.ok img) =
                Except.ok [("original", img), ("checkbox_binary", cb.1),
                  ("checkbox_edges", cb.2), ("radio_enhanced", radio),
                  ("combined", combined), ("high_contrast", high), ("inverted", inverted)] := by
              unfold create_enhanced_versions_gen
              dsimp only
              rw [hcb, hr, hc, hh, hi]
              rfl
            refine ⟨fun hcon => Except.noConfusion (hred ▸ hcon), ⟨_, hred, rfl⟩, ?_⟩
            rintro (⟨e, he⟩ | ⟨e, he⟩ | ⟨e, he⟩ | ⟨e, he⟩ | ⟨e, he⟩)
            · exact Except.noConfusion he
            · exact Except.noConfusion he
            · exact Except.noConfusion he
            · exact Except.noConfusion he
            · exact Except.noConfusion he

/-- C9 witness: a checkbox-enhancement failure degrades the result to the
single original entry. -/
theorem create_enhanced_versions_gen_original_witness :
    create_enhanced_versions_gen (fun _ => Except.error ())
        (fun i => Except.ok i) (fun i => Except.ok i) (fun i => Except.ok i)
        (fun i => Except.ok i) (Except.ok img0) = Except.ok [("original", img0)] :=
  (create_enhanced_versions_gen_original (fun _ => Except.error ())
      (fun i => Except.ok i) (fun i => Except.ok i) (fun i => Except.ok i)
      (fun i => Except.ok i) (Except.ok img0) img0 rfl).2.2 (Or.inl ⟨(), rfl⟩)

end RecOps
